import Mathlib

/-!
Verification of the Smithsonian provider-API crawl script
(`src/cc_catalog_airflow/dags/provider_api_scripts/smithsonian.py`).

The script consumes JSON payloads decoded by Python's `json` module, so the
data model is a JSON value type, and the Python field accesses (`dict.get`,
`d[k]`, iteration, truthiness, `str.lower`, `+`) are embedded as functions
that either return a value or raise, modelled with `Except String`.  The
error string records the Python exception class that the corresponding
operation raises (AttributeError, TypeError, KeyError, ValueError).
-/

namespace Smithsonian

/-- A decoded JSON value, as produced by Python's `json.loads`.  Python's
`None` and JSON `null` are the same value in the script, so both are `null`. -/
inductive JSON where
  | null
  | bool (b : Bool)
  | num (n : Int)
  | str (s : String)
  | arr (xs : List JSON)
  | obj (fields : List (String × JSON))

/-- A Python dict with string keys, in insertion order (keys are unique in
every dict the script builds). -/
abbrev PyDict := List (String × JSON)

/-- Whether the value is a dict; translation of Python's `type(i) == dict`. -/
def JSON.isObj : JSON → Bool
  | .obj _ => true
  | _ => false

/-- Whether the value is a string. -/
def JSON.isStr : JSON → Bool
  | .str _ => true
  | _ => false

/-- The underlying string of a string value (and a default for the rest;
only used in statements, under hypotheses that make the value a string). -/
def JSON.asStr : JSON → String
  | .str s => s
  | _ => ""

/-- Pure lookup with default: what Python's `d.get(k, default)` returns when
`d` is known to be a dict.  Used in specification statements. -/
def jsonGetD (j : JSON) (k : String) (d : JSON) : JSON :=
  match j with
  | .obj fs => ((fs.find? (fun p => p.1 == k)).map Prod.snd).getD d
  | _ => d

/-- Python `j.get(k, d)`: succeeds on a dict, raises AttributeError on any
other value (in particular on `None`, i.e. `null`). -/
def pyDictGet (j : JSON) (k : String) (d : JSON) : Except String JSON :=
  match j with
  | .obj fs => .ok (((fs.find? (fun p => p.1 == k)).map Prod.snd).getD d)
  | _ => .error "AttributeError"

/-- Python `j[k]` on a dict: raises KeyError when the key is missing and
TypeError when `j` does not support indexing by a string. -/
def jsonIndex (j : JSON) (k : String) : Except String JSON :=
  match j with
  | .obj fs =>
    match fs.find? (fun p => p.1 == k) with
    | some p => .ok p.2
    | none => .error "KeyError"
  | _ => .error "TypeError"

/-- Python iteration `for x in j`: lists yield their elements, strings yield
their one-character substrings, dicts yield their keys, and everything else
raises TypeError. -/
def pyIter : JSON → Except String (List JSON)
  | .arr xs => .ok xs
  | .str s => .ok (s.data.map (fun c => .str (String.mk [c])))
  | .obj fs => .ok (fs.map (fun p => .str p.1))
  | _ => .error "TypeError"

/-- Python truthiness of a JSON value. -/
def pyTruthy : JSON → Bool
  | .null => false
  | .bool b => b
  | .num n => n != 0
  | .str s => s != ""
  | .arr xs => !xs.isEmpty
  | .obj fs => !fs.isEmpty

/-- Python `j == s` for a string literal `s`: true only when `j` is an equal
string; comparison against a non-string is `False`, never an error. -/
def pyEqStr (j : JSON) (s : String) : Bool :=
  match j with
  | .str t => t == s
  | _ => false

/-- ASCII lower-casing of one character, as `str.lower` acts on the ASCII
role labels and type names this script compares against. -/
def lowerChar (c : Char) : Char :=
  if 'A' ≤ c ∧ c ≤ 'Z' then Char.ofNat (c.toNat + 32) else c

/-- ASCII lower-casing of a string (`str.lower` on the ASCII data the
script handles). -/
def pyLowerStr (s : String) : String := String.mk (s.data.map lowerChar)

/-- Python `j.lower()`: succeeds only on strings. -/
def pyLower : JSON → Except String String
  | .str s => .ok (pyLowerStr s)
  | _ => .error "AttributeError"

/-- A value used where Python requires a `str` (the operand of `' ' + c`):
anything else raises TypeError. -/
def asStrE : JSON → Except String String
  | .str s => .ok s
  | _ => .error "TypeError"

/-- A value used where Python requires an `int`: anything else raises, which
this model reports as a TypeError. -/
def asInt : JSON → Except String Int
  | .num n => .ok n
  | .bool b => .ok (if b then 1 else 0)
  | _ => .error "TypeError"

/-- Python `a + b` on JSON values: list + list, str + str and num + num
succeed, every other combination the script could produce raises TypeError. -/
def pyAdd : JSON → JSON → Except String JSON
  | .arr a, .arr b => .ok (.arr (a ++ b))
  | .str a, .str b => .ok (.str (a ++ b))
  | .num a, .num b => .ok (.num (a + b))
  | _, _ => .error "TypeError"

/-- Python `d.update(k=v)` / `d[k] = v` on an association-list dict: replace
the value in place when the key exists, append otherwise. -/
def pyDictSet (d : PyDict) (k : String) (v : JSON) : PyDict :=
  if d.any (fun p => p.1 == k) then
    d.map (fun p => if p.1 == k then (k, v) else p)
  else d ++ [(k, v)]

/-! ## Module constants of smithsonian.py -/

/-- `ZERO_URL`: the fixed public-domain zero-rights license URL. -/
def ZERO_URL : String := "https://creativecommons.org/publicdomain/zero/1.0/"

/-- `LIMIT`: number of rows to pull at once. -/
def LIMIT : Nat := 1000

/-- `CREATOR_TYPES`: lower-case creator-role labels with their preference
rank; lower is more preferred, equal ranks carry no preference. -/
def CREATOR_TYPES : List (String × Nat) :=
  [("artist", 0), ("artist/maker", 0), ("attributed to", 0), ("author", 0),
   ("created_by", 0), ("creator", 0), ("model maker", 0), ("photographer", 0),
   ("photograph by", 0), ("written by", 0),
   ("architect", 1), ("designer", 1),
   ("compiled by", 2), ("engraver", 2), ("etcher", 2), ("maker", 2),
   ("silversmith", 2),
   ("print maker", 3), ("after", 3), ("inventor", 0),
   ("manufactured by", 4), ("manufacturer", 4), ("published by", 4),
   ("publisher", 4),
   ("patentee", 5)]

/-! ## Hash partitioner (`_get_hash_prefixes`) -/

/-- The lowercase hex digit for a value below 16, as produced by Python's
`format(h, 'x')`. -/
def hexDigitChar (n : Nat) : Char :=
  if n < 10 then Char.ofNat (48 + n) else Char.ofNat (87 + n)

/-- Structural worker for the hex-digit expansion: `fuel` bounds the
recursion depth and never runs out when `fuel ≥ n`, because the quotient
shrinks strictly at every step. -/
def toHexCoreGo : Nat → Nat → List Char
  | 0, n => [hexDigitChar (n % 16)]
  | fuel + 1, n =>
    if n < 16 then [hexDigitChar n]
    else toHexCoreGo fuel (n / 16) ++ [hexDigitChar (n % 16)]

/-- The hex digits (most significant first) of `n`, as produced by Python's
`format(n, 'x')` before padding; `0` formats as "0". -/
def toHexCore (n : Nat) : List Char := toHexCoreGo n n

/-- The fuel argument is irrelevant as soon as it covers the value. -/
theorem toHexCoreGo_congr (n : Nat) :
    ∀ fuel fuel', n ≤ fuel → n ≤ fuel' → toHexCoreGo fuel n = toHexCoreGo fuel' n := by
  induction n using Nat.strong_induction_on with
  | _ n ih =>
    intro fuel fuel' h1 h2
    match fuel, fuel' with
    | 0, 0 => rfl
    | 0, f' + 1 =>
      have hn : n = 0 := by omega
      subst hn
      rfl
    | f + 1, 0 =>
      have hn : n = 0 := by omega
      subst hn
      rfl
    | f + 1, f' + 1 =>
      show (if n < 16 then [hexDigitChar n]
          else toHexCoreGo f (n / 16) ++ [hexDigitChar (n % 16)]) =
        (if n < 16 then [hexDigitChar n]
          else toHexCoreGo f' (n / 16) ++ [hexDigitChar (n % 16)])
      by_cases h : n < 16
      · rw [if_pos h, if_pos h]
      · rw [if_neg h, if_neg h,
          ih (n / 16) (Nat.div_lt_self (by omega) (by omega)) f f' (by omega) (by omega)]

/-- The recursive unfolding of the hex-digit expansion. -/
theorem toHexCore_eq (n : Nat) :
    toHexCore n =
      if n < 16 then [hexDigitChar n]
      else toHexCore (n / 16) ++ [hexDigitChar (n % 16)] := by
  by_cases h : n < 16
  · rw [if_pos h]
    match n with
    | 0 => rfl
    | m + 1 =>
      show (if m + 1 < 16 then [hexDigitChar (m + 1)]
          else toHexCoreGo m ((m + 1) / 16) ++ [hexDigitChar ((m + 1) % 16)]) = _
      rw [if_pos h]
  · rw [if_neg h]
    match n, h with
    | m + 1, h =>
      show (if m + 1 < 16 then [hexDigitChar (m + 1)]
          else toHexCoreGo m ((m + 1) / 16) ++ [hexDigitChar ((m + 1) % 16)]) = _
      rw [if_neg h]
      rw [toHexCoreGo_congr ((m + 1) / 16) m ((m + 1) / 16)
        (by have := Nat.div_lt_self (show 0 < m + 1 by omega) (show 1 < 16 by omega); omega)
        (le_refl _)]
      rfl

/-- Python `format(n, '0' + str(width) + 'x')`: the lowercase hex digits of
`n`, left-padded with zeros to at least `width` characters.  This is the
format string `f'0{prefix_length}x'` built by `_get_hash_prefixes`. -/
def formatHex (width n : Nat) : String :=
  String.mk (List.replicate (width - (toHexCore n).length) '0' ++ toHexCore n)

/-- The value of a single hex digit accepted by Python's `int(s, 16)`. -/
def hexVal (c : Char) : Option Nat :=
  if '0' ≤ c ∧ c ≤ '9' then some (c.toNat - 48)
  else if 'a' ≤ c ∧ c ≤ 'f' then some (c.toNat - 87)
  else if 'A' ≤ c ∧ c ≤ 'F' then some (c.toNat - 55)
  else none

/-- The accumulator loop of base-16 string parsing. -/
def parseHexCore : List Char → Nat → Except String Nat
  | [], acc => .ok acc
  | c :: rest, acc =>
    match hexVal c with
    | some d => parseHexCore rest (acc * 16 + d)
    | none => .error "ValueError"

/-- Python `int(s, 16)`: raises ValueError on the empty string and on any
non-hex character. -/
def pyIntHex (s : String) : Except String Nat :=
  if s.data.isEmpty then .error "ValueError" else parseHexCore s.data 0

/-- Translation of `_get_hash_prefixes(prefix_length)`: the list of values
yielded by the generator, or the exception it raises.  The source computes
`max_prefix = 'f' * prefix_length`, parses it with `int(max_prefix, 16)`, and
yields `format(h, f'0{prefix_length}x')` for `h` in `range(parsed + 1)`. -/
def getHashPrefixes (prefixLength : Nat) : Except String (List String) := do
  let maxPfx := String.mk (List.replicate prefixLength 'f')
  let m ← pyIntHex maxPfx
  .ok ((List.range (m + 1)).map (fun h => formatHex prefixLength h))

/-! ## Query construction (`_build_query_params`) -/

/-- The `q` clause string built inside `_build_query_params`: the fixed
media-type and usage clauses, then the optional hash clause, then the
optional unit-code clause. -/
def buildQueryString (hashPfx unitCode : Option String) : String :=
  let qs := "online_media_type:Images AND media_usage:CC0"
  let qs := match hashPfx with
    | some hp => qs ++ " AND hash:" ++ hp ++ "*"
    | none => qs
  match unitCode with
  | some uc => qs ++ " AND unit_code:" ++ uc
  | none => qs

/-- Python `d.copy()`: a fresh dict holding the same entries.  In this pure
embedding the copy is the same association list; what matters is which of
the two dict references each subsequent mutation is applied to. -/
def pyCopy (d : PyDict) : PyDict := d

/-- Translation of `_build_query_params(row_offset, hash_prefix,
default_params, unit_code)`.  The source copies `default_params`, builds the
query string, and applies `update(q=..., start=...)` to the copy only.  The
result is the pair of the returned dict and the `default_params` dict as it
stands after the call (no operation of the source mutates it, so it is
returned unchanged). -/
def buildQueryParams (rowOffset : Nat) (hashPfx : Option String)
    (defaultParams : PyDict) (unitCode : Option String) : PyDict × PyDict :=
  let queryParams := pyCopy defaultParams
  let queryParams := pyDictSet queryParams "q"
    (.str (buildQueryString hashPfx unitCode))
  let queryParams := pyDictSet queryParams "start" (.num rowOffset)
  (queryParams, defaultParams)

/-! ## Field extraction (`_get_foreign_landing_url`, `_get_creator`,
`_extract_meta_data`, `_extract_tags`) -/

/-- Translation of `_get_foreign_landing_url(dnr_dict)`: the
`record_link` field, falling back to `guid` when it is `None`. -/
def getForeignLandingUrl (dnrDict : JSON) : Except String JSON := do
  let link ← pyDictGet dnrDict "record_link" .null
  match link with
  | .null => pyDictGet dnrDict "guid" .null
  | l => .ok l

/-- The filter condition of the freetext-name list comprehension in
`_get_creator`: `type(i) == dict and i.get('label', '').lower() in
creator_types and i.get('content')`, evaluated with Python's short-circuit
semantics (so `.lower()` can raise on a dict whose label is not a string). -/
def freetextNameKeep (i : JSON) : Except String Bool :=
  if i.isObj then do
    let labRaw ← pyDictGet i "label" (.str "")
    let lab ← pyLower labRaw
    if (CREATOR_TYPES.lookup lab).isSome then do
      let c ← pyDictGet i "content" .null
      .ok (pyTruthy c)
    else .ok false
  else .ok false

/-- Eager evaluation of a Python list comprehension whose condition can
raise: keep the elements whose condition is true, propagate the first
exception. -/
def exceptFilter (p : JSON → Except String Bool) : List JSON → Except String (List JSON)
  | [] => .ok []
  | x :: xs => do
    let b ← p x
    let rest ← exceptFilter p xs
    .ok (if b then x :: rest else rest)

/-- The sort key of `sorted(..., key=lambda x: creator_types[x['label'].lower()])`.
Every element reaching the sort passed the filter, so its label is a string
whose lower-casing is a key of the table; the fallbacks of this total
reformulation are unreachable on those elements. -/
def rankOf (x : JSON) : Nat :=
  (CREATOR_TYPES.lookup (pyLowerStr (jsonGetD x "label" (.str "")).asStr)).getD 0

/-- Stable insertion into a rank-sorted list: the new element goes before
the first element of equal or larger rank, which preserves the original
relative order of equal ranks when elements are inserted back to front. -/
def sortInsert (x : JSON) : List JSON → List JSON
  | [] => [x]
  | y :: ys => if rankOf x ≤ rankOf y then x :: y :: ys else y :: sortInsert x ys

/-- A stable sort by `rankOf`, the embedding of Python's stable
`sorted(..., key=...)`. -/
def sortByRank : List JSON → List JSON
  | [] => []
  | x :: xs => sortInsert x (sortByRank xs)

/-- The lazy generator `(i['content'] for i in indexed_structured.get('name', [])
if type(i) == dict and i.get('type', '').lower() == 'personal_main' and
i.get('content'))` pulled once with `next(gen, None)`: elements after the
first match are never evaluated. -/
def firstIndexedCreator : List JSON → Except String JSON
  | [] => .ok .null
  | i :: rest =>
    if i.isObj then do
      let tRaw ← pyDictGet i "type" (.str "")
      let t ← pyLower tRaw
      if t == "personal_main" then do
        let c ← pyDictGet i "content" .null
        if pyTruthy c then jsonIndex i "content"
        else firstIndexedCreator rest
      else firstIndexedCreator rest
    else firstIndexedCreator rest

/-- Translation of `_get_creator(indexed_structured, freetext)`.  The source
first evaluates the sorted freetext list comprehension, then creates the two
generators (creating the indexed-structured one evaluates
`indexed_structured.get('name', [])` and takes its iterator), then pulls the
freetext generator and, only if that yields nothing, the
indexed-structured one.  Returns `null` for Python's `None`. -/
def getCreator (indexedStructured freetext : JSON) : Except String JSON := do
  let nameListJ ← pyDictGet freetext "name" (.arr [])
  let nameList ← pyIter nameListJ
  let filtered ← exceptFilter freetextNameKeep nameList
  let ordered := sortByRank filtered
  let idxNameJ ← pyDictGet indexedStructured "name" (.arr [])
  let idxName ← pyIter idxNameJ
  match ordered.head? with
  | some c => jsonIndex c "content"
  | none => firstIndexedCreator idxName

/-- The note-accumulation loop of `_extract_meta_data`: walk the notes in
order, appending `' ' + note.get('content', '')` to the description for the
labels Description, Summary and Caption, and to the label-text accumulator
for the label "Label Text". -/
def notesLoop : List JSON → String → String → Except String (String × String)
  | [], description, labelTexts => .ok (description, labelTexts)
  | note :: rest, description, labelTexts => do
    let lab ← pyDictGet note "label" .null
    if pyEqStr lab "Description" then do
      let c ← pyDictGet note "content" (.str "")
      let cs ← asStrE c
      notesLoop rest (description ++ (" " ++ cs)) labelTexts
    else if pyEqStr lab "Summary" then do
      let c ← pyDictGet note "content" (.str "")
      let cs ← asStrE c
      notesLoop rest (description ++ (" " ++ cs)) labelTexts
    else if pyEqStr lab "Caption" then do
      let c ← pyDictGet note "content" (.str "")
      let cs ← asStrE c
      notesLoop rest (description ++ (" " ++ cs)) labelTexts
    else if pyEqStr lab "Label Text" then do
      let c ← pyDictGet note "content" (.str "")
      let cs ← asStrE c
      notesLoop rest description (labelTexts ++ (" " ++ cs))
    else notesLoop rest description labelTexts

/-- Translation of `_extract_meta_data(descriptive_non_repeating, freetext)`:
run the notes loop, build the dict with the `unit_code` and `data_source`
keys, then add `description` and `label_texts` only when their accumulated
strings are truthy (non-empty). -/
def extractMetaData (descriptiveNonRepeating freetext : JSON) :
    Except String PyDict := do
  let notesJ ← pyDictGet freetext "notes" (.arr [])
  let notes ← pyIter notesJ
  let (description, labelTexts) ← notesLoop notes "" ""
  let unitCode ← pyDictGet descriptiveNonRepeating "unit_code" .null
  let dataSource ← pyDictGet descriptiveNonRepeating "data_source" .null
  let md : PyDict := [("unit_code", unitCode), ("data_source", dataSource)]
  let md := if description = "" then md else pyDictSet md "description" (.str description)
  let md := if labelTexts = "" then md else pyDictSet md "label_texts" (.str labelTexts)
  .ok md

/-- Translation of `_extract_tags(indexed_structured)`: the left-to-right
sum of the `date`, `object_type`, `topic` and `place` fields (defaulting to
`[]`), returned as-is when truthy and as `None` otherwise. -/
def extractTags (indexedStructured : JSON) : Except String JSON := do
  let d ← pyDictGet indexedStructured "date" (.arr [])
  let o ← pyDictGet indexedStructured "object_type" (.arr [])
  let t ← pyDictGet indexedStructured "topic" (.arr [])
  let p ← pyDictGet indexedStructured "place" (.arr [])
  let s1 ← pyAdd d o
  let s2 ← pyAdd s1 t
  let s3 ← pyAdd s2 p
  .ok (if pyTruthy s3 then s3 else .null)

/-! ## Record fan-out (`_process_image_list`, `_process_response_json`) -/

/-- One normalized record accumulated by the ImageStore collaborator, with
the fields `_process_image_list` passes to `image_store.add_item`. -/
structure ImageRecord where
  foreignLandingUrl : JSON
  imageUrl : JSON
  thumbnailUrl : JSON
  licenseUrl : String
  foreignIdentifier : JSON
  title : JSON
  creator : JSON
  metaData : PyDict
  rawTags : JSON

/-- The per-entry loop of `_process_image_list`: the short-circuit condition
`image_data.get('type') == 'Images' and image_data.get('usage', {}).get('access') == 'CC0'`,
then `image_store.add_item(...)`, which appends the record and returns the
running total.  `tot` carries `total_images` (None until the first added
item). -/
def imageLoop (landing title creator : JSON) (md : PyDict) (tags : JSON) :
    List JSON → Option Nat → List ImageRecord →
    Except String (Option Nat × List ImageRecord)
  | [], tot, store => .ok (tot, store)
  | d :: rest, tot, store => do
    let t ← pyDictGet d "type" .null
    let q ←
      if pyEqStr t "Images" then do
        let u ← pyDictGet d "usage" (.obj [])
        let a ← pyDictGet u "access" .null
        pure (pyEqStr a "CC0")
      else pure false
    if q then do
      let iu ← pyDictGet d "content" .null
      let th ← pyDictGet d "thumbnail" .null
      let fid ← pyDictGet d "idsId" .null
      let store := store ++ [⟨landing, iu, th, ZERO_URL, fid, title, creator, md, tags⟩]
      imageLoop landing title creator md tags rest (some store.length) store
    else imageLoop landing title creator md tags rest tot store

/-- Translation of `_process_image_list(image_list, ...)`: iterate the media
value and run the per-entry loop, threading the ImageStore state
explicitly. -/
def processImageList (imageList landing title creator : JSON) (md : PyDict)
    (tags : JSON) (store : List ImageRecord) :
    Except String (Option Nat × List ImageRecord) := do
  let items ← pyIter imageList
  imageLoop landing title creator md tags items none store

/-- The per-row loop of `_process_response_json`, in source order: fetch
`content` (default `{}`), its `descriptiveNonRepeating` and
`indexedStructured` sub-dicts (default `{}`), its `freetext` value (NO
default: `content.get('freetext')`), the title, then run the extraction
steps, then fan out the media list when it is not `None`.
`_process_image_list`'s return value overwrites `total_images`. -/
def processRows : List JSON → Option Nat → List ImageRecord →
    Except String (Option Nat × List ImageRecord)
  | [], tot, store => .ok (tot, store)
  | row :: rest, tot, store => do
    let content ← pyDictGet row "content" (.obj [])
    let dnr ← pyDictGet content "descriptiveNonRepeating" (.obj [])
    let idx ← pyDictGet content "indexedStructured" (.obj [])
    let ft ← pyDictGet content "freetext" .null
    let title ← pyDictGet row "title" .null
    let landing ← getForeignLandingUrl dnr
    let creator ← getCreator idx ft
    let md ← extractMetaData dnr ft
    let tags ← extractTags idx
    let om ← pyDictGet dnr "online_media" (.obj [])
    let imageList ← pyDictGet om "media" .null
    match imageList with
    | .null => processRows rest tot store
    | il => do
      let (t, store) ← processImageList il landing title creator md tags store
      processRows rest t store

/-- Translation of `_process_response_json(response_json)`: walk
`response_json.get('response', {}).get('rows', [])` with the row loop,
starting from `total_images = None`. -/
def processResponseJson (responseJson : JSON) (store : List ImageRecord) :
    Except String (Option Nat × List ImageRecord) := do
  let resp ← pyDictGet responseJson "response" (.obj [])
  let rowsJ ← pyDictGet resp "rows" (.arr [])
  let rows ← pyIter rowsJ
  processRows rows none store

/-! ## The per-shard crawl loop (`_process_hash_prefix`) -/

/-- `response_json.get('response', {}).get('rowCount', 0)` followed by the
use of the value as the loop bound `total_rows`, which Python compares with
the integer `row_offset` (a non-int raises there). -/
def rowCountOf (responseJson : JSON) : Except String Int := do
  let resp ← pyDictGet responseJson "response" (.obj [])
  let rc ← pyDictGet resp "rowCount" (.num 0)
  asInt rc

/-- Record the offset of one loop iteration at the head of the visited-offset
trace of a loop result. -/
def consVisit (off : Nat) :
    Except String (List Nat × Int × Nat × List ImageRecord) →
    Except String (List Nat × Int × Nat × List ImageRecord) :=
  Except.map (fun q => (off :: q.1, q.2))

/-- The `while row_offset < total_rows` loop of `_process_hash_prefix`,
instrumented with the list of offsets at which a request is issued and
bounded by `fuel` loop iterations: `none` means the loop did not finish
within `fuel` iterations, `some (.error e)` that an iteration raised, and
`some (.ok (visits, total_rows, total_images, store))` that the loop exited
normally, returning `total_rows` as the source does.  Each iteration issues
`fetch off` (the Requester, `None` being the retries-exhausted sentinel); on
failure it only logs; on success it processes the page and reads the fresh
`rowCount`; in either case `row_offset += limit` runs at the end of the
iteration body. -/
def crawlLoop (fetch : Nat → Option JSON) (limit fuel off : Nat) (totalRows : Int)
    (totalImages : Nat) (store : List ImageRecord) :
    Option (Except String (List Nat × Int × Nat × List ImageRecord)) :=
  if (off : Int) < totalRows then
    match fuel with
    | 0 => none
    | fuel + 1 =>
      match fetch off with
      | none =>
        (crawlLoop fetch limit fuel (off + limit) totalRows totalImages store).map
          (consVisit off)
      | some rj =>
        match processResponseJson rj store with
        | .error e => some (.error e)
        | .ok (newTotal, store) =>
          match rowCountOf rj with
          | .error e => some (.error e)
          | .ok tr =>
            (crawlLoop fetch limit fuel (off + limit) tr
              (newTotal.getD totalImages) store).map (consVisit off)
  else some (.ok ([], totalRows, totalImages, store))

/-- Translation of `_process_hash_prefix(hash_prefix, endpoint, limit,
retries)`: `total_images = 0`, `row_offset = 0`, `total_rows = 1`, then the
pagination loop.  The Requester and the query building are abstracted into
`fetch`, the response for a given offset. -/
def processShard (fetch : Nat → Option JSON) (limit fuel : Nat)
    (store : List ImageRecord) :
    Option (Except String (List Nat × Int × Nat × List ImageRecord)) :=
  crawlLoop fetch limit fuel 0 1 0 store

/-- A simulated page whose reported rowCount is `R` and whose rows list is
empty: the shape used to drive the loop claims. -/
def pageJson (R : Nat) : JSON :=
  .obj [("response", .obj [("rowCount", .num (R : Int))])]

/-! ## Specification-side definitions

These follow the wording of the specification (filter, then select the
lowest-rank entry with ties broken by original order, etc.) and are compared
with the translations above in the refinement theorems. -/

/-- The first element of the list achieving the minimum rank: the earlier
element wins every tie.  This is the spec's "lowest priority rank, ties
broken by original order" selector. -/
def firstMinRank (rank : JSON → Nat) : List JSON → Option JSON
  | [] => none
  | x :: xs =>
    match firstMinRank rank xs with
    | none => some x
    | some y => if rank x ≤ rank y then some x else some y

/-- A freetext name entry qualifying for creator resolution: a structured
object whose lower-cased label is a recognized creator role and whose
content is non-empty (truthy). -/
def creatorEntryQualifies (i : JSON) : Bool :=
  i.isObj &&
    (CREATOR_TYPES.lookup (pyLowerStr (jsonGetD i "label" (.str "")).asStr)).isSome &&
    pyTruthy (jsonGetD i "content" .null)

/-- An indexed-structured name entry used as fallback: a structured object
whose lower-cased type equals "personal_main" with non-empty content. -/
def personalMainEntry (i : JSON) : Bool :=
  i.isObj && (pyLowerStr (jsonGetD i "type" (.str "")).asStr == "personal_main") &&
    pyTruthy (jsonGetD i "content" .null)

/-- The elements of an array value, and `[]` for any other value; used on
values the hypotheses force to be arrays. -/
def jsonItems : JSON → List JSON
  | .arr xs => xs
  | _ => []

/-- Creator resolution as worded by the spec: among qualifying freetext name
entries return the content of the lowest-rank entry (ties broken by original
order); otherwise the content of the first personal_main indexed-structured
entry; otherwise absent (`null`). -/
def creatorSpec (indexedStructured freetext : JSON) : JSON :=
  let qualifying := (jsonItems (jsonGetD freetext "name" (.arr []))).filter
    creatorEntryQualifies
  match firstMinRank rankOf qualifying with
  | some e => jsonGetD e "content" .null
  | none =>
    match (jsonItems (jsonGetD indexedStructured "name" (.arr []))).find?
        personalMainEntry with
    | some e => jsonGetD e "content" .null
    | none => .null

/-- A note whose label is one of Description, Summary or Caption. -/
def isDescLabel (n : JSON) : Bool :=
  pyEqStr (jsonGetD n "label" .null) "Description" ||
    pyEqStr (jsonGetD n "label" .null) "Summary" ||
    pyEqStr (jsonGetD n "label" .null) "Caption"

/-- A note whose label is "Label Text". -/
def isLabelTextLabel (n : JSON) : Bool :=
  pyEqStr (jsonGetD n "label" .null) "Label Text"

/-- The content string of a note (default the empty string). -/
def noteContent (n : JSON) : String := (jsonGetD n "content" (.str "")).asStr

/-- The join rule the implementation pins down: every piece is preceded by
one space, including the first, so contents "A" and "B" join to " A B". -/
def spaceJoinLead : List String → String
  | [] => ""
  | s :: rest => " " ++ s ++ spaceJoinLead rest

/-- The accumulated description string of a notes list. -/
def descAccum (notes : List JSON) : String :=
  spaceJoinLead ((notes.filter isDescLabel).map noteContent)

/-- The accumulated label-text string of a notes list. -/
def labelAccum (notes : List JSON) : String :=
  spaceJoinLead ((notes.filter isLabelTextLabel).map noteContent)

/-- The meta-data mapping `_extract_meta_data` builds, as worded by the
amended claims: `unit_code` and `data_source` always present (null when the
source field is missing), `description` and `label_texts` present exactly
when their accumulated strings are non-empty. -/
def metaDataSpec (dnr : JSON) (notes : List JSON) : PyDict :=
  [("unit_code", jsonGetD dnr "unit_code" .null),
   ("data_source", jsonGetD dnr "data_source" .null)] ++
    (if descAccum notes = "" then [] else [("description", .str (descAccum notes))]) ++
    (if labelAccum notes = "" then [] else [("label_texts", .str (labelAccum notes))])

/-- A media entry qualifying for fan-out: type "Images" and usage-access
"CC0". -/
def imageEntryQualifies (d : JSON) : Bool :=
  pyEqStr (jsonGetD d "type" .null) "Images" &&
    pyEqStr (jsonGetD (jsonGetD d "usage" (.obj [])) "access" .null) "CC0"

/-- The normalized record a qualifying media entry yields: identifier,
image URL and thumbnail from the entry, the fixed zero-rights license URL,
and the row-level fields shared across the row's records. -/
def mkImageRecord (landing title creator : JSON) (md : PyDict) (tags : JSON)
    (d : JSON) : ImageRecord :=
  { foreignLandingUrl := landing
    imageUrl := jsonGetD d "content" .null
    thumbnailUrl := jsonGetD d "thumbnail" .null
    licenseUrl := ZERO_URL
    foreignIdentifier := jsonGetD d "idsId" .null
    title := title
    creator := creator
    metaData := md
    rawTags := tags }

/-- A single lowercase-hex-or-digit character, the alphabet of the shard
keys. -/
def isLowerHexChar (c : Char) : Bool :=
  ('0' ≤ c && c ≤ '9') || ('a' ≤ c && c ≤ 'f')

/-! ## Basic lemmas -/

theorem pyDictGet_eq_ok (j : JSON) (k : String) (d : JSON) (h : j.isObj = true) :
    pyDictGet j k d = .ok (jsonGetD j k d) := by
  cases j <;> simp_all [pyDictGet, jsonGetD, JSON.isObj]

theorem crawlLoop_stop (fetch : Nat → Option JSON) (limit fuel off : Nat)
    (tr : Int) (ti : Nat) (store : List ImageRecord) (h : ¬ ((off : Int) < tr)) :
    crawlLoop fetch limit fuel off tr ti store = some (.ok ([], tr, ti, store)) := by
  unfold crawlLoop
  rw [if_neg h]

/-! ## Claim C1 -/

/-- A search response with a single row whose content object lacks the
`freetext` key (but has the two sibling sub-dicts the script defaults). -/
def freetextMissingRow : JSON :=
  .obj [("content", .obj [("descriptiveNonRepeating", .obj []),
                          ("indexedStructured", .obj [])]),
        ("title", .str "A title")]

/-- The response wrapping that row. -/
def freetextMissingResponse : JSON :=
  .obj [("response", .obj [("rows", .arr [freetextMissingRow])])]

/-- Claim C1: extraction is claimed total for every raw API row, including a
row whose content lacks the `freetext` key.  The code is not:
`_process_response_json` reads `content.get('freetext')` with no default
(unlike the two `.get(..., {})` calls just above it), so the row loop hands
`None` to `_get_creator`, whose `freetext.get('name', [])` raises
AttributeError.  This theorem evaluates the translation on that row. -/
theorem processResponseJson_missing_freetext_raises :
    processResponseJson freetextMissingResponse [] = .error "AttributeError" := rfl

/-! ## Claim C2 -/

/-- Claim C2 counterexample: with every fetch returning the failure sentinel
and the source's page limit 1000, the shard loop finishes within two
iterations of fuel, visiting only offset 0 and returning the initial bound 1
— it does not run forever as claimed. -/
theorem processShard_persistent_failure_counterexample :
    processShard (fun _ => none) 1000 2 [] = some (.ok ([0], 1, 0, [])) ∧
      processShard (fun _ => none) 1000 2 [] ≠ none := by
  constructor
  · rfl
  · intro h
    rw [show processShard (fun _ => none) 1000 2 [] = some (.ok ([0], 1, 0, []))
      from rfl] at h
    exact Option.noConfusion h

/-- Claim C2 amended: the continue-on-failure path indeed never updates the
bound `total_rows`, but `row_offset += limit` runs on every iteration, so
under persistent Requester failure the loop still terminates: for any page
limit at least 1 it issues exactly one request (offset 0), exits, and
returns the initial bound 1 with no images stored. -/
theorem processShard_persistent_failure_terminates (limit fuel : Nat)
    (hl : 1 ≤ limit) (hf : 1 ≤ fuel) :
    processShard (fun _ => none) limit fuel [] = some (.ok ([0], 1, 0, [])) := by
  obtain ⟨f, rfl⟩ : ∃ f, fuel = f + 1 := ⟨fuel - 1, by omega⟩
  unfold processShard crawlLoop
  rw [if_pos (by norm_num : ((0 : Nat) : Int) < 1)]
  show Option.map (consVisit 0) (crawlLoop (fun _ => none) limit f (0 + limit) 1 0 []) =
    some (.ok ([0], 1, 0, []))
  rw [crawlLoop_stop _ _ _ _ _ _ _ (by omega)]
  rfl

/-- Witness for the amended C2 theorem at the source's limit 1000. -/
theorem processShard_persistent_failure_terminates_witness :
    1 ≤ 1000 ∧ 1 ≤ 1 ∧
      processShard (fun _ => none) 1000 1 [] = some (.ok ([0], 1, 0, [])) :=
  ⟨by decide, by decide,
    processShard_persistent_failure_terminates 1000 1 (by decide) (by decide)⟩

/-! ## Claim C3 -/

theorem processResponseJson_pageJson (R : Nat) (store : List ImageRecord) :
    processResponseJson (pageJson R) store = .ok (none, store) := rfl

theorem rowCountOf_pageJson (R : Nat) : rowCountOf (pageJson R) = .ok (R : Int) := rfl

/-- Unrolling one offset from a sweep: the multiples of P covering a span of
x remaining rows start with the current offset. -/
theorem range_mul_cons (off x P : Nat) (hP : 0 < P) (hx : 0 < x) :
    (List.range ((x + P - 1) / P)).map (fun i => off + i * P) =
      off :: (List.range ((x - P + P - 1) / P)).map (fun i => off + P + i * P) := by
  have hm : (x - P + P - 1) / P = (x - 1) / P := by
    by_cases hpx : P ≤ x
    · have h1 : x - P + P - 1 = x - 1 := by omega
      rw [h1]
    · have h1 : x - P = 0 := by omega
      rw [h1]
      have e1 : (0 + P - 1) / P = 0 := Nat.div_eq_of_lt (by omega)
      have e2 : (x - 1) / P = 0 := Nat.div_eq_of_lt (by omega)
      rw [e1, e2]
  have hn : (x + P - 1) / P = (x - 1) / P + 1 := by
    have h1 : x + P - 1 = (x - 1) + P := by omega
    rw [h1, Nat.add_div_right _ hP]
  rw [hn, hm, List.range_succ_eq_map, List.map_cons, List.map_map]
  have hfun : ((fun i => off + i * P) ∘ Nat.succ) = fun i => off + P + i * P := by
    funext i
    show off + Nat.succ i * P = off + P + i * P
    rw [Nat.succ_mul]
    ring
  rw [hfun]
  simp

/-- The sweep under a constant reported rowCount R: starting at any offset
with the bound already R, the loop visits exactly the offsets `off + i * P`
while they stay below R, then stops and returns R. -/
theorem crawlLoop_const (R P : Nat) (hP : 0 < P) :
    ∀ fuel off, R ≤ off + fuel * P →
      crawlLoop (fun _ => some (pageJson R)) P fuel off (R : Int) 0 [] =
        some (.ok ((List.range ((R - off + P - 1) / P)).map (fun i => off + i * P),
          (R : Int), 0, []))
  | 0, off, hfuel => by
    rw [crawlLoop_stop _ _ _ _ _ _ _ (by omega)]
    have h0 : R - off = 0 := by omega
    rw [h0]
    have h1 : (0 + P - 1) / P = 0 := Nat.div_eq_of_lt (by omega)
    rw [h1]
    rfl
  | fuel + 1, off, hfuel => by
    have hstep : R ≤ off + P + fuel * P := by
      have h2 : (fuel + 1) * P = fuel * P + P := by ring
      omega
    by_cases hlt : off < R
    · unfold crawlLoop
      rw [if_pos (by exact_mod_cast hlt)]
      show Option.map (consVisit off)
          (crawlLoop (fun _ => some (pageJson R)) P fuel (off + P) (R : Int) 0 []) =
        some (.ok ((List.range ((R - off + P - 1) / P)).map (fun i => off + i * P),
          (R : Int), 0, []))
      rw [crawlLoop_const R P hP fuel (off + P) hstep]
      rw [show R - (off + P) = R - off - P from by omega]
      rw [range_mul_cons off (R - off) P hP (by omega)]
      rfl
    · rw [crawlLoop_stop _ _ _ _ _ _ _ (by omega)]
      have h0 : R - off = 0 := by omega
      rw [h0]
      have h1 : (0 + P - 1) / P = 0 := Nat.div_eq_of_lt (by omega)
      rw [h1]
      rfl

/-- Claim C3: when every successful page reports the same rowCount R and the
page limit is P > 0, the shard sweep visits exactly the offsets 0, P, 2P, …
below the first multiple of P reaching R (the initial bound of 1 forces the
request at offset 0 even when R = 0), then terminates and returns the final
observed rowCount R, storing nothing for these row-less pages. -/
theorem processShard_stable_rowcount (R P : Nat) (hP : 0 < P) :
    processShard (fun _ => some (pageJson R)) P (R + 1) [] =
      some (.ok ((List.range (max 1 ((R + P - 1) / P))).map (fun i => i * P),
        (R : Int), 0, [])) := by
  unfold processShard crawlLoop
  rw [if_pos (by norm_num : ((0 : Nat) : Int) < 1)]
  show Option.map (consVisit 0)
      (crawlLoop (fun _ => some (pageJson R)) P R (0 + P) (R : Int) 0 []) =
    some (.ok ((List.range (max 1 ((R + P - 1) / P))).map (fun i => i * P),
      (R : Int), 0, []))
  have hfuel : R ≤ 0 + P + R * P := by
    have : R ≤ R * P := Nat.le_mul_of_pos_right R hP
    omega
  rw [crawlLoop_const R P hP R (0 + P) hfuel]
  by_cases hR : R = 0
  · subst hR
    have h1 : (P - 1) / P = 0 := Nat.div_eq_of_lt (by omega)
    simp [consVisit, Except.map, h1,
      show (0 : Nat) - (0 + P) = 0 from by omega,
      show List.range 1 = [0] from rfl]
  · have hx : 0 < R := by omega
    have hmax : max 1 ((R + P - 1) / P) = (R + P - 1) / P :=
      Nat.max_eq_right ((Nat.one_le_div_iff hP).mpr (by omega))
    rw [hmax]
    have hfun : (fun i : Nat => i * P) = fun i => 0 + i * P := by
      funext i
      simp
    rw [hfun, range_mul_cons 0 R P hP hx]
    rw [show R - (0 + P) = R - P from by omega]
    simp [consVisit, Except.map]

/-- Witness for the C3 theorem at R = 5, P = 2: the visited offsets are
0, 2, 4 and the returned rowCount is 5. -/
theorem processShard_stable_rowcount_witness :
    0 < 2 ∧
      processShard (fun _ => some (pageJson 5)) 2 6 [] =
        some (.ok ((List.range (max 1 ((5 + 2 - 1) / 2))).map (fun i => i * 2),
          ((5 : Nat) : Int), 0, [])) :=
  ⟨by decide, processShard_stable_rowcount 5 2 (by decide)⟩

/-! ## Claim C8 -/

theorem hexVal_hexDigitChar : ∀ n < 16, hexVal (hexDigitChar n) = some n := by decide

theorem isLowerHexChar_hexDigitChar : ∀ n < 16, isLowerHexChar (hexDigitChar n) = true := by
  decide

theorem toHexCore_length_pos (n : Nat) : 1 ≤ (toHexCore n).length := by
  rw [toHexCore_eq]
  split <;> simp

theorem parseHexCore_append_one :
    ∀ (xs : List Char) (acc v d : Nat) (c : Char),
      parseHexCore xs acc = .ok v → hexVal c = some d →
      parseHexCore (xs ++ [c]) acc = .ok (v * 16 + d)
  | [], acc, v, d, c, hv, hc => by
    simp only [parseHexCore, Except.ok.injEq] at hv
    subst hv
    simp [parseHexCore, hc]
  | x :: xs, acc, v, d, c, hv, hc => by
    cases hx : hexVal x with
    | none => simp [parseHexCore, hx] at hv
    | some dx =>
      simp only [parseHexCore, hx] at hv
      rw [List.cons_append]
      simp only [parseHexCore, hx]
      exact parseHexCore_append_one xs (acc * 16 + dx) v d c hv hc

theorem parseHexCore_toHexCore (n : Nat) :
    ∀ acc, parseHexCore (toHexCore n) acc =
      .ok (acc * 16 ^ (toHexCore n).length + n) := by
  induction n using Nat.strong_induction_on with
  | _ n ih =>
    intro acc
    by_cases h : n < 16
    · rw [toHexCore_eq]
      simp only [if_pos h, List.length_singleton, pow_one]
      simp [parseHexCore, hexVal_hexDigitChar n h]
    · rw [toHexCore_eq]
      simp only [if_neg h, List.length_append, List.length_singleton]
      have hrec := ih (n / 16) (Nat.div_lt_self (by omega) (by omega)) acc
      have happ := parseHexCore_append_one (toHexCore (n / 16)) acc
        (acc * 16 ^ (toHexCore (n / 16)).length + n / 16) (n % 16)
        (hexDigitChar (n % 16)) hrec
        (hexVal_hexDigitChar (n % 16) (Nat.mod_lt n (by omega)))
      rw [happ]
      have harith : (acc * 16 ^ (toHexCore (n / 16)).length + n / 16) * 16 + n % 16 =
          acc * (16 ^ (toHexCore (n / 16)).length * 16) + (n / 16 * 16 + n % 16) := by
        ring
      rw [harith, Nat.div_add_mod', pow_succ]

theorem toHexCore_length_le :
    ∀ (L n : Nat), 1 ≤ L → n < 16 ^ L → (toHexCore n).length ≤ L
  | 0, _, hL, _ => by omega
  | L + 1, n, _, hn => by
    by_cases h : n < 16
    · rw [toHexCore_eq]
      simp only [if_pos h, List.length_singleton]
      omega
    · rw [toHexCore_eq]
      simp only [if_neg h, List.length_append, List.length_singleton]
      have hL1 : 1 ≤ L := by
        by_contra hc
        have hL0 : L = 0 := by omega
        subst hL0
        rw [pow_one] at hn
        omega
      have hdiv : n / 16 < 16 ^ L := by
        rw [Nat.div_lt_iff_lt_mul (by norm_num : (0 : Nat) < 16)]
        calc n < 16 ^ (L + 1) := hn
          _ = 16 ^ L * 16 := by rw [pow_succ]
      have := toHexCore_length_le L (n / 16) hL1 hdiv
      omega

theorem parseHexCore_replicate_zero :
    ∀ (k : Nat) (cs : List Char),
      parseHexCore (List.replicate k '0' ++ cs) 0 = parseHexCore cs 0
  | 0, cs => by simp
  | k + 1, cs => by
    rw [List.replicate_succ, List.cons_append]
    simp only [parseHexCore, show hexVal '0' = some 0 from by decide]
    exact parseHexCore_replicate_zero k cs

theorem parseHexCore_replicate_f :
    ∀ (L acc : Nat), parseHexCore (List.replicate L 'f') acc =
      .ok (acc * 16 ^ L + (16 ^ L - 1))
  | 0, acc => by simp [parseHexCore]
  | L + 1, acc => by
    rw [List.replicate_succ]
    simp only [parseHexCore, show hexVal 'f' = some 15 from by decide]
    rw [parseHexCore_replicate_f L (acc * 16 + 15)]
    have h1 : 1 ≤ 16 ^ L := Nat.one_le_pow L 16 (by norm_num)
    have heq : (acc * 16 + 15) * 16 ^ L + (16 ^ L - 1) =
        acc * 16 ^ (L + 1) + (16 ^ (L + 1) - 1) := by
      rw [pow_succ]
      have e1 : (acc * 16 + 15) * 16 ^ L = acc * (16 ^ L * 16) + 15 * 16 ^ L := by
        ring
      rw [e1]
      generalize acc * (16 ^ L * 16) = u
      omega
    rw [heq]

theorem toHexCore_lower (n : Nat) :
    ∀ c ∈ toHexCore n, isLowerHexChar c = true := by
  induction n using Nat.strong_induction_on with
  | _ n ih =>
    intro c hc
    by_cases h : n < 16
    · rw [toHexCore_eq] at hc
      simp only [if_pos h, List.mem_singleton] at hc
      subst hc
      exact isLowerHexChar_hexDigitChar n h
    · rw [toHexCore_eq] at hc
      simp only [if_neg h, List.mem_append, List.mem_singleton] at hc
      rcases hc with hc | hc
      · exact ih (n / 16) (Nat.div_lt_self (by omega) (by omega)) c hc
      · subst hc
        exact isLowerHexChar_hexDigitChar (n % 16) (Nat.mod_lt n (by omega))

theorem formatHex_data_ne_nil (L n : Nat) : (formatHex L n).data ≠ [] := by
  intro h
  have := congrArg List.length h
  simp only [formatHex, List.length_append, List.length_replicate,
    List.length_nil] at this
  have := toHexCore_length_pos n
  omega

theorem pyIntHex_formatHex (L n : Nat) :
    pyIntHex (formatHex L n) = .ok n := by
  rw [pyIntHex, if_neg (by simp [List.isEmpty_iff, formatHex_data_ne_nil L n])]
  show parseHexCore (List.replicate (L - (toHexCore n).length) '0' ++ toHexCore n) 0 =
    .ok n
  rw [parseHexCore_replicate_zero, parseHexCore_toHexCore n 0]
  simp

theorem formatHex_length (L n : Nat) (hL : 1 ≤ L) (hn : n < 16 ^ L) :
    (formatHex L n).length = L := by
  have hle := toHexCore_length_le L n hL hn
  simp only [formatHex, String.length, List.length_append, List.length_replicate]
  omega

theorem getHashPrefixes_eq (L : Nat) (hL : 1 ≤ L) :
    getHashPrefixes L = .ok ((List.range (16 ^ L)).map (formatHex L)) := by
  have hpow : 1 ≤ 16 ^ L := Nat.one_le_pow L 16 (by norm_num)
  have hne : (List.replicate L 'f' : List Char) ≠ [] := by
    intro h
    have := congrArg List.length h
    simp at this
    omega
  rw [getHashPrefixes]
  show (do
    let m ← pyIntHex (String.mk (List.replicate L 'f'))
    Except.ok ((List.range (m + 1)).map (fun h => formatHex L h))) = _
  rw [show pyIntHex (String.mk (List.replicate L 'f')) = .ok (16 ^ L - 1) from by
    rw [pyIntHex, if_neg (by simp [List.isEmpty_iff]; omega)]
    show parseHexCore (List.replicate L 'f') 0 = _
    rw [parseHexCore_replicate_f L 0]
    simp]
  show Except.ok ((List.range (16 ^ L - 1 + 1)).map (fun h => formatHex L h)) = _
  rw [show 16 ^ L - 1 + 1 = 16 ^ L from by omega]

/-- Claim C8 amended: for every length L ≥ 1, the hash partitioner yields
exactly the 16^L hex encodings of 0 … 16^L−1 in increasing numeric order;
the outputs are pairwise distinct, each has exactly L characters, every
character is a lowercase hex digit, and parsing the n-th output back with
`int(_, 16)` returns n.  (At L = 0 the source raises instead, see the
counterexample.) -/
theorem getHashPrefixes_spec (L n : Nat) (c : Char) (hL : 1 ≤ L)
    (hn : n < 16 ^ L) (hc : c ∈ (formatHex L n).data) :
    getHashPrefixes L = .ok ((List.range (16 ^ L)).map (formatHex L)) ∧
      ((List.range (16 ^ L)).map (formatHex L)).Nodup ∧
      (formatHex L n).length = L ∧
      isLowerHexChar c = true ∧
      pyIntHex (formatHex L n) = .ok n := by
  refine ⟨getHashPrefixes_eq L hL, ?_, formatHex_length L n hL hn, ?_,
    pyIntHex_formatHex L n⟩
  · refine List.Nodup.map_on ?_ (List.nodup_range _)
    intro x hx y hy hxy
    rw [List.mem_range] at hx hy
    have h1 := pyIntHex_formatHex L x
    have h2 := pyIntHex_formatHex L y
    rw [hxy, h2] at h1
    exact Except.ok.inj h1.symm
  · have hc' : c ∈ List.replicate (L - (toHexCore n).length) '0' ++ toHexCore n := hc
    rw [List.mem_append] at hc'
    rcases hc' with hpad | hcore
    · have hc0 : c = '0' := List.eq_of_mem_replicate hpad
      subst hc0
      decide
    · exact toHexCore_lower n c hcore

/-- Witness for the C8 theorem at L = 1, n = 0, c = the character of "0". -/
theorem getHashPrefixes_spec_witness :
    1 ≤ 1 ∧ 0 < 16 ^ 1 ∧ '0' ∈ (formatHex 1 0).data ∧
      (getHashPrefixes 1 = .ok ((List.range (16 ^ 1)).map (formatHex 1)) ∧
        ((List.range (16 ^ 1)).map (formatHex 1)).Nodup ∧
        (formatHex 1 0).length = 1 ∧
        isLowerHexChar '0' = true ∧
        pyIntHex (formatHex 1 0) = .ok 0) :=
  ⟨by decide, by decide, by decide,
    getHashPrefixes_spec 1 0 '0' (by decide) (by decide) (by decide)⟩

/-- Claim C8 counterexample: at L = 0 the source computes `int('', 16)`,
which raises ValueError, so the partitioner does not yield the 16^0 = 1
string the claim promises for every L. -/
theorem getHashPrefixes_zero_raises :
    getHashPrefixes 0 = .error "ValueError" ∧
      getHashPrefixes 0 ≠ .ok ((List.range (16 ^ 0)).map (formatHex 0)) := by
  constructor
  · rfl
  · intro h
    rw [show getHashPrefixes 0 = Except.error "ValueError" from rfl] at h
    exact Except.noConfusion h

/-! ## Claim C7 -/

/-- Claim C7: the extracted tags are the concatenation, in the fixed order
date, object_type, topic, place, of the four indexed-structured arrays; an
empty concatenation yields the absent value (`None`), a non-empty one the
array itself in that fixed source order. -/
theorem extractTags_spec (idx : JSON) (d o t p : List JSON)
    (hobj : idx.isObj = true)
    (hd : jsonGetD idx "date" (.arr []) = .arr d)
    (ho : jsonGetD idx "object_type" (.arr []) = .arr o)
    (ht : jsonGetD idx "topic" (.arr []) = .arr t)
    (hp : jsonGetD idx "place" (.arr []) = .arr p) :
    extractTags idx = .ok (if (d ++ o ++ t ++ p).isEmpty then JSON.null
      else .arr (d ++ o ++ t ++ p)) := by
  rw [extractTags, pyDictGet_eq_ok idx "date" _ hobj, hd,
    pyDictGet_eq_ok idx "object_type" _ hobj, ho,
    pyDictGet_eq_ok idx "topic" _ hobj, ht,
    pyDictGet_eq_ok idx "place" _ hobj, hp]
  show Except.ok (if pyTruthy (.arr (d ++ o ++ t ++ p))
      then JSON.arr (d ++ o ++ t ++ p) else JSON.null) = _
  by_cases h : (d ++ o ++ t ++ p).isEmpty = true
  · have hnil : d ++ o ++ t ++ p = [] := by simpa using h
    rw [hnil]
    rfl
  · have hf : (d ++ o ++ t ++ p).isEmpty = false := by
      cases hh : (d ++ o ++ t ++ p).isEmpty
      · rfl
      · exact absurd hh h
    show Except.ok (if !(d ++ o ++ t ++ p).isEmpty
        then JSON.arr (d ++ o ++ t ++ p) else JSON.null) = _
    rw [hf]
    rfl

/-- Witness for the C7 theorem: a row with one topic and the other three
arrays absent yields exactly that topic as the tags array. -/
theorem extractTags_spec_witness :
    extractTags (JSON.obj [("topic", JSON.arr [JSON.str "Art"])]) =
      Except.ok (if (([] : List JSON) ++ [] ++ [JSON.str "Art"] ++ []).isEmpty
        then JSON.null
        else JSON.arr (([] : List JSON) ++ [] ++ [JSON.str "Art"] ++ [])) :=
  extractTags_spec (JSON.obj [("topic", JSON.arr [JSON.str "Art"])])
    [] [] [JSON.str "Art"] [] rfl rfl rfl rfl rfl

/-! ## Claim C10 -/

theorem lookup_map_replace (d : PyDict) (k : String) (v : JSON)
    (hany : d.any (fun p => p.1 == k) = true) :
    List.lookup k (d.map (fun p => if p.1 == k then (k, v) else p)) = some v := by
  induction d with
  | nil => simp at hany
  | cons x xs ih =>
    obtain ⟨x1, x2⟩ := x
    by_cases hx : (x1 == k) = true
    · simp only [List.map_cons, if_pos hx]
      exact List.lookup_cons_self
    · have hany' : xs.any (fun p => p.1 == k) = true := by
        simp only [List.any_cons] at hany
        simpa [hx] using hany
      simp only [List.map_cons, if_neg hx, List.lookup_cons]
      have hback : (k == x1) = false := by
        refine beq_eq_false_iff_ne.mpr fun hq => ?_
        rw [hq] at hx
        simp at hx
      rw [hback]
      exact ih hany'

theorem lookup_map_replace_other (d : PyDict) (k k' : String) (v : JSON)
    (h : k' ≠ k) :
    List.lookup k' (d.map (fun p => if p.1 == k then (k, v) else p)) =
      List.lookup k' d := by
  induction d with
  | nil => rfl
  | cons x xs ih =>
    obtain ⟨x1, x2⟩ := x
    by_cases hx : (x1 == k) = true
    · have hxk : x1 = k := by simpa using hx
      have hne : (k' == k) = false := beq_eq_false_iff_ne.mpr h
      have hne' : (k' == x1) = false := by
        rw [hxk]
        exact hne
      simp only [List.map_cons, if_pos hx, List.lookup_cons, hne, hne']
      exact ih
    · simp only [List.map_cons, if_neg hx, List.lookup_cons]
      cases hxk : k' == x1
      · exact ih
      · rfl

theorem lookup_append_self (d : PyDict) (k : String) (v : JSON)
    (hany : d.any (fun p => p.1 == k) = false) :
    List.lookup k (d ++ [(k, v)]) = some v := by
  induction d with
  | nil => exact List.lookup_cons_self
  | cons x xs ih =>
    obtain ⟨x1, x2⟩ := x
    simp only [List.any_cons, Bool.or_eq_false_iff] at hany
    have hback : (k == x1) = false := by
      refine beq_eq_false_iff_ne.mpr fun hq => ?_
      rw [hq] at hany
      simp at hany
    simp only [List.cons_append, List.lookup_cons, hback]
    exact ih hany.2

theorem lookup_append_other (d : PyDict) (k k' : String) (v : JSON)
    (h : k' ≠ k) :
    List.lookup k' (d ++ [(k, v)]) = List.lookup k' d := by
  induction d with
  | nil =>
    have hne : (k' == k) = false := beq_eq_false_iff_ne.mpr h
    simp [List.lookup_cons, hne]
  | cons x xs ih =>
    obtain ⟨x1, x2⟩ := x
    simp only [List.cons_append, List.lookup_cons]
    cases hxk : k' == x1
    · exact ih
    · rfl

theorem lookup_pyDictSet_self (d : PyDict) (k : String) (v : JSON) :
    List.lookup k (pyDictSet d k v) = some v := by
  rw [pyDictSet]
  by_cases hany : d.any (fun p => p.1 == k) = true
  · rw [if_pos hany]
    exact lookup_map_replace d k v hany
  · rw [if_neg hany]
    refine lookup_append_self d k v ?_
    cases hh : d.any (fun p => p.1 == k)
    · rfl
    · exact absurd hh hany

theorem lookup_pyDictSet_other (d : PyDict) (k k' : String) (v : JSON)
    (h : k' ≠ k) :
    List.lookup k' (pyDictSet d k v) = List.lookup k' d := by
  rw [pyDictSet]
  by_cases hany : d.any (fun p => p.1 == k) = true
  · rw [if_pos hany]
    exact lookup_map_replace_other d k k' v h
  · rw [if_neg hany]
    exact lookup_append_other d k k' v h

/-- Claim C10: building the query parameters never mutates the shared
default-parameters dict — the update runs on the copy, so after any call the
defaults are unchanged — and the returned dict is the defaults plus exactly
the fresh `q` and `start` entries: `q` holds the built clause string,
`start` the offset, and every other key is looked up exactly as in the
defaults. -/
theorem buildQueryParams_spec (off : Nat) (hpfx : Option String) (dp : PyDict)
    (uc : Option String) (k : String) (hk1 : k ≠ "q") (hk2 : k ≠ "start") :
    (buildQueryParams off hpfx dp uc).2 = dp ∧
      List.lookup "q" (buildQueryParams off hpfx dp uc).1 =
        some (.str (buildQueryString hpfx uc)) ∧
      List.lookup "start" (buildQueryParams off hpfx dp uc).1 =
        some (.num off) ∧
      List.lookup k (buildQueryParams off hpfx dp uc).1 = List.lookup k dp := by
  refine ⟨rfl, ?_, ?_, ?_⟩
  · show List.lookup "q"
        (pyDictSet (pyDictSet (pyCopy dp) "q" (.str (buildQueryString hpfx uc)))
          "start" (.num off)) = _
    rw [lookup_pyDictSet_other _ _ _ _ (by decide), lookup_pyDictSet_self]
  · exact lookup_pyDictSet_self _ _ _
  · show List.lookup k
        (pyDictSet (pyDictSet (pyCopy dp) "q" (.str (buildQueryString hpfx uc)))
          "start" (.num off)) = _
    rw [lookup_pyDictSet_other _ _ _ _ hk2, lookup_pyDictSet_other _ _ _ _ hk1]
    rfl

/-- Witness for the C10 theorem at the module defaults shape: api_key and
rows survive untouched and the defaults dict is returned unchanged. -/
theorem buildQueryParams_spec_witness :
    ("api_key" : String) ≠ "q" ∧ ("api_key" : String) ≠ "start" ∧
      ((buildQueryParams 500 (some "aa")
          [("api_key", .str "KEY"), ("rows", .num 1000)] none).2 =
        [("api_key", .str "KEY"), ("rows", .num 1000)] ∧
      List.lookup "q" (buildQueryParams 500 (some "aa")
          [("api_key", .str "KEY"), ("rows", .num 1000)] none).1 =
        some (.str (buildQueryString (some "aa") none)) ∧
      List.lookup "start" (buildQueryParams 500 (some "aa")
          [("api_key", .str "KEY"), ("rows", .num 1000)] none).1 =
        some (.num 500) ∧
      List.lookup "api_key" (buildQueryParams 500 (some "aa")
          [("api_key", .str "KEY"), ("rows", .num 1000)] none).1 =
        List.lookup "api_key" [(("api_key" : String), JSON.str "KEY"),
          ("rows", .num 1000)]) :=
  ⟨by decide, by decide,
    buildQueryParams_spec 500 (some "aa")
      [("api_key", .str "KEY"), ("rows", .num 1000)] none "api_key"
      (by decide) (by decide)⟩

/-! ## Claims C6 and C9: `_extract_meta_data` -/

theorem strAppendAssoc (a b c : String) : a ++ b ++ c = a ++ (b ++ c) := by
  cases a with
  | mk la =>
    cases b with
    | mk lb =>
      cases c with
      | mk lc => exact congrArg String.mk (List.append_assoc la lb lc)

theorem strEmptyAppend (s : String) : "" ++ s = s := rfl

theorem strAppendEmpty (s : String) : s ++ "" = s := by
  cases s with
  | mk l => exact congrArg String.mk (List.append_nil l)

/-- Reduction of a bind on a success value (the Monad instance of Except). -/
theorem bind_ok_ex {α β : Type} (a : α) (f : α → Except String β) :
    (Except.ok a >>= f : Except String β) = f a := rfl

theorem bool_eq_false {b : Bool} (h : ¬ b = true) : b = false := by
  cases b
  · rfl
  · exact absurd rfl h

theorem pyEqStr_eq {j : JSON} {s : String} (h : pyEqStr j s = true) :
    j = .str s := by
  cases j with
  | str t =>
    have ht : t = s := by simpa [pyEqStr] using h
    rw [ht]
  | null => simp [pyEqStr] at h
  | bool b => simp [pyEqStr] at h
  | num n => simp [pyEqStr] at h
  | arr xs => simp [pyEqStr] at h
  | obj fs => simp [pyEqStr] at h

theorem isStr_exists {j : JSON} (h : j.isStr = true) : ∃ s, j = JSON.str s := by
  cases j <;> simp_all [JSON.isStr]

theorem descAccum_cons_true {note : JSON} (rest : List JSON)
    (h : isDescLabel note = true) :
    descAccum (note :: rest) = " " ++ noteContent note ++ descAccum rest := by
  simp [descAccum, List.filter_cons, h, spaceJoinLead]

theorem descAccum_cons_false {note : JSON} (rest : List JSON)
    (h : isDescLabel note = false) :
    descAccum (note :: rest) = descAccum rest := by
  simp [descAccum, List.filter_cons, h]

theorem labelAccum_cons_true {note : JSON} (rest : List JSON)
    (h : isLabelTextLabel note = true) :
    labelAccum (note :: rest) = " " ++ noteContent note ++ labelAccum rest := by
  simp [labelAccum, List.filter_cons, h, spaceJoinLead]

theorem labelAccum_cons_false {note : JSON} (rest : List JSON)
    (h : isLabelTextLabel note = false) :
    labelAccum (note :: rest) = labelAccum rest := by
  simp [labelAccum, List.filter_cons, h]

/-- The note loop accumulates, onto whatever is already in the two
accumulators, the leading-space-joined contents of the Description, Summary
and Caption notes (description), and of the "Label Text" notes
(label-text), in encounter order. -/
theorem notesLoop_eq (notes : List JSON)
    (hshape : ∀ n ∈ notes, n.isObj = true ∧
      (jsonGetD n "content" (.str "")).isStr = true) :
    ∀ d lt, notesLoop notes d lt =
      .ok (d ++ descAccum notes, lt ++ labelAccum notes) := by
  induction notes with
  | nil =>
    intro d lt
    simp [notesLoop, descAccum, labelAccum, spaceJoinLead, strAppendEmpty]
  | cons note rest ih =>
    intro d lt
    obtain ⟨hobj, hstr⟩ := hshape note (by simp)
    have hrest : ∀ n ∈ rest, n.isObj = true ∧
        (jsonGetD n "content" (.str "")).isStr = true :=
      fun n hn => hshape n (by simp [hn])
    obtain ⟨cs, hcs⟩ := isStr_exists hstr
    simp only [notesLoop]
    rw [pyDictGet_eq_ok note "label" _ hobj]
    simp only [bind_ok_ex]
    by_cases h1 : pyEqStr (jsonGetD note "label" .null) "Description" = true
    · rw [if_pos h1, pyDictGet_eq_ok note "content" _ hobj, hcs]
      simp only [bind_ok_ex, asStrE]
      rw [ih hrest]
      have hdesc : isDescLabel note = true := by simp [isDescLabel, h1]
      have hlab : isLabelTextLabel note = false := by
        simp only [isLabelTextLabel, pyEqStr_eq h1]
        rfl
      rw [descAccum_cons_true rest hdesc, labelAccum_cons_false rest hlab,
        show noteContent note = cs from by simp [noteContent, hcs, JSON.asStr],
        strAppendAssoc d (" " ++ cs) (descAccum rest)]
    · rw [if_neg h1]
      by_cases h2 : pyEqStr (jsonGetD note "label" .null) "Summary" = true
      · rw [if_pos h2, pyDictGet_eq_ok note "content" _ hobj, hcs]
        simp only [bind_ok_ex, asStrE]
        rw [ih hrest]
        have hdesc : isDescLabel note = true := by simp [isDescLabel, h2]
        have hlab : isLabelTextLabel note = false := by
          simp only [isLabelTextLabel, pyEqStr_eq h2]
          rfl
        rw [descAccum_cons_true rest hdesc, labelAccum_cons_false rest hlab,
          show noteContent note = cs from by simp [noteContent, hcs, JSON.asStr],
          strAppendAssoc d (" " ++ cs) (descAccum rest)]
      · rw [if_neg h2]
        by_cases h3 : pyEqStr (jsonGetD note "label" .null) "Caption" = true
        · rw [if_pos h3, pyDictGet_eq_ok note "content" _ hobj, hcs]
          simp only [bind_ok_ex, asStrE]
          rw [ih hrest]
          have hdesc : isDescLabel note = true := by simp [isDescLabel, h3]
          have hlab : isLabelTextLabel note = false := by
            simp only [isLabelTextLabel, pyEqStr_eq h3]
            rfl
          rw [descAccum_cons_true rest hdesc, labelAccum_cons_false rest hlab,
            show noteContent note = cs from by simp [noteContent, hcs, JSON.asStr],
            strAppendAssoc d (" " ++ cs) (descAccum rest)]
        · rw [if_neg h3]
          by_cases h4 : pyEqStr (jsonGetD note "label" .null) "Label Text" = true
          · rw [if_pos h4, pyDictGet_eq_ok note "content" _ hobj, hcs]
            simp only [bind_ok_ex, asStrE]
            rw [ih hrest]
            have hdesc : isDescLabel note = false := by
              simp [isDescLabel, bool_eq_false h1, bool_eq_false h2,
                bool_eq_false h3]
            have hlab : isLabelTextLabel note = true := by
              simpa [isLabelTextLabel] using h4
            rw [descAccum_cons_false rest hdesc, labelAccum_cons_true rest hlab,
              show noteContent note = cs from by simp [noteContent, hcs, JSON.asStr],
              strAppendAssoc lt (" " ++ cs) (labelAccum rest)]
          · rw [if_neg h4]
            rw [ih hrest]
            have hdesc : isDescLabel note = false := by
              simp [isDescLabel, bool_eq_false h1, bool_eq_false h2,
                bool_eq_false h3]
            have hlab : isLabelTextLabel note = false := by
              simpa [isLabelTextLabel] using bool_eq_false h4
            rw [descAccum_cons_false rest hdesc, labelAccum_cons_false rest hlab]

/-- The full meta-data mapping for a well-shaped row: unit_code and
data_source always present with the row's values (null when missing), the
two accumulated texts present exactly when non-empty, holding the
leading-space joins. -/
theorem extractMetaData_eq (dnr ft : JSON) (notes : List JSON)
    (hdnr : dnr.isObj = true) (hft : ft.isObj = true)
    (hnotes : jsonGetD ft "notes" (.arr []) = .arr notes)
    (hshape : ∀ n ∈ notes, n.isObj = true ∧
      (jsonGetD n "content" (.str "")).isStr = true) :
    extractMetaData dnr ft = .ok (metaDataSpec dnr notes) := by
  rw [extractMetaData, pyDictGet_eq_ok ft "notes" _ hft, hnotes]
  simp only [pyIter, bind_ok_ex]
  rw [notesLoop_eq notes hshape "" ""]
  simp only [bind_ok_ex, strEmptyAppend]
  rw [pyDictGet_eq_ok dnr "unit_code" _ hdnr,
    pyDictGet_eq_ok dnr "data_source" _ hdnr]
  simp only [bind_ok_ex]
  by_cases hD : descAccum notes = "" <;> by_cases hL : labelAccum notes = "" <;>
    simp [metaDataSpec, hD, hL, pyDictSet]

/-- The two-note input of the C6 counterexample: a Description note with
content "A" followed by a Summary note with content "B". -/
def descNotesInput : JSON :=
  .obj [("notes", .arr [
    .obj [("label", .str "Description"), ("content", .str "A")],
    .obj [("label", .str "Summary"), ("content", .str "B")]])]

/-- Claim C6 counterexample: on notes with contents "A" and "B" the code
produces the description " A B" — every piece is preceded by a space,
including the first — which differs from the claimed "A B". -/
theorem extractMetaData_leading_space_counterexample :
    extractMetaData (.obj []) descNotesInput =
      .ok [("unit_code", JSON.null), ("data_source", JSON.null),
           ("description", JSON.str " A B")] ∧
      (" A B" : String) ≠ "A B" := by
  constructor
  · rfl
  · decide

/-- Claim C6 amended: the description equals the concatenation, in encounter
order, of one space followed by the content, over every note labelled
Description, Summary or Caption (so contents "A" and "B" yield " A B", with
a leading separator), and the description key is present in the output
mapping exactly when that accumulated string is non-empty; the same
join-and-presence rule holds for the label-text over "Label Text" notes
(stored under the key label_texts). -/
theorem extractMetaData_join_rule (dnr ft : JSON) (notes : List JSON)
    (hdnr : dnr.isObj = true) (hft : ft.isObj = true)
    (hnotes : jsonGetD ft "notes" (.arr []) = .arr notes)
    (hshape : ∀ n ∈ notes, n.isObj = true ∧
      (jsonGetD n "content" (.str "")).isStr = true) :
    extractMetaData dnr ft = .ok (metaDataSpec dnr notes) :=
  extractMetaData_eq dnr ft notes hdnr hft hnotes hshape

/-- Witness for the amended C6 theorem on the two-note input. -/
theorem extractMetaData_join_rule_witness :
    extractMetaData (JSON.obj []) descNotesInput =
      .ok (metaDataSpec (JSON.obj [])
        (jsonItems (jsonGetD descNotesInput "notes" (.arr [])))) :=
  extractMetaData_join_rule (JSON.obj []) descNotesInput
    (jsonItems (jsonGetD descNotesInput "notes" (.arr [])))
    rfl rfl rfl (by decide)

/-- Claim C9 counterexample: for a row whose descriptive-non-repeating dict
has neither field, the output mapping still contains the unit_code and
data_source keys (mapped to null) — they are not absent as claimed. -/
theorem extractMetaData_keys_present_counterexample :
    extractMetaData (.obj []) (.obj []) =
      .ok [("unit_code", JSON.null), ("data_source", JSON.null)] ∧
      List.lookup "unit_code"
        [(("unit_code" : String), JSON.null), ("data_source", JSON.null)] ≠
        none := by
  constructor
  · rfl
  · simp [List.lookup_cons]

/-- Claim C9 amended: the unit-code and data-source keys are always present
in the output meta-data mapping; each maps to the row's
descriptive-non-repeating value when that field is present and to the
explicit null (Python None) value otherwise. -/
theorem extractMetaData_unit_data_keys (dnr ft : JSON) (notes : List JSON)
    (hdnr : dnr.isObj = true) (hft : ft.isObj = true)
    (hnotes : jsonGetD ft "notes" (.arr []) = .arr notes)
    (hshape : ∀ n ∈ notes, n.isObj = true ∧
      (jsonGetD n "content" (.str "")).isStr = true) :
    (extractMetaData dnr ft).map
        (fun md => (List.lookup "unit_code" md, List.lookup "data_source" md)) =
      .ok (some (jsonGetD dnr "unit_code" .null),
           some (jsonGetD dnr "data_source" .null)) := by
  rw [extractMetaData_eq dnr ft notes hdnr hft hnotes hshape]
  by_cases hD : descAccum notes = "" <;> by_cases hL : labelAccum notes = "" <;>
    simp [metaDataSpec, hD, hL, Except.map, List.lookup_cons]

/-- Witness for the amended C9 theorem: a unit code present in the row is
copied, the missing data source maps to null. -/
theorem extractMetaData_unit_data_keys_witness :
    (extractMetaData (JSON.obj [("unit_code", JSON.str "NMNH")])
        (JSON.obj [])).map
        (fun md => (List.lookup "unit_code" md, List.lookup "data_source" md)) =
      .ok (some (jsonGetD (JSON.obj [("unit_code", JSON.str "NMNH")])
             "unit_code" .null),
           some (jsonGetD (JSON.obj [("unit_code", JSON.str "NMNH")])
             "data_source" .null)) :=
  extractMetaData_unit_data_keys (JSON.obj [("unit_code", JSON.str "NMNH")])
    (JSON.obj []) [] rfl rfl rfl (by simp)

/-! ## Claim C4: `_get_creator` -/

theorem exceptFilter_eq (p : JSON → Except String Bool) (q : JSON → Bool) :
    ∀ (l : List JSON), (∀ x ∈ l, p x = .ok (q x)) →
      exceptFilter p l = .ok (l.filter q)
  | [], _ => rfl
  | x :: xs, h => by
    have hx := h x (by simp)
    have hxs : ∀ y ∈ xs, p y = .ok (q y) := fun y hy => h y (by simp [hy])
    simp only [exceptFilter]
    rw [hx]
    simp only [bind_ok_ex]
    rw [exceptFilter_eq p q xs hxs]
    simp only [bind_ok_ex]
    cases hq : q x <;> simp [List.filter_cons, hq]

theorem freetextNameKeep_ok (i : JSON)
    (h : i.isObj = true → (jsonGetD i "label" (.str "")).isStr = true) :
    freetextNameKeep i = .ok (creatorEntryQualifies i) := by
  by_cases hobj : i.isObj = true
  · obtain ⟨s, hs⟩ := isStr_exists (h hobj)
    rw [freetextNameKeep, if_pos hobj, pyDictGet_eq_ok i "label" _ hobj, hs]
    simp only [bind_ok_ex, pyLower]
    by_cases hmem : (CREATOR_TYPES.lookup (pyLowerStr s)).isSome = true
    · rw [if_pos hmem, pyDictGet_eq_ok i "content" _ hobj]
      simp only [bind_ok_ex]
      simp [creatorEntryQualifies, hobj, hs, JSON.asStr, hmem]
    · rw [if_neg hmem]
      simp [creatorEntryQualifies, hobj, hs, JSON.asStr, bool_eq_false hmem]
  · rw [freetextNameKeep, if_neg hobj]
    simp [creatorEntryQualifies, bool_eq_false hobj]

theorem sortInsert_head (x : JSON) (l : List JSON) :
    (sortInsert x l).head? = some (match l.head? with
      | none => x
      | some y => if rankOf x ≤ rankOf y then x else y) := by
  cases l with
  | nil => rfl
  | cons y ys =>
    by_cases h : rankOf x ≤ rankOf y
    · simp [sortInsert, h]
    · simp [sortInsert, h]

theorem sortByRank_head (l : List JSON) :
    (sortByRank l).head? = firstMinRank rankOf l := by
  induction l with
  | nil => rfl
  | cons x xs ih =>
    simp only [sortByRank, firstMinRank]
    rw [sortInsert_head, ih]
    cases hfm : firstMinRank rankOf xs with
    | none => rfl
    | some y => by_cases h : rankOf x ≤ rankOf y <;> simp [h]

theorem firstMinRank_mem {rank : JSON → Nat} :
    ∀ {l : List JSON} {x : JSON}, firstMinRank rank l = some x → x ∈ l
  | [], x, h => by simp [firstMinRank] at h
  | y :: ys, x, h => by
    simp only [firstMinRank] at h
    cases hfm : firstMinRank rank ys with
    | none =>
      rw [hfm] at h
      simp only [Option.some.injEq] at h
      rw [← h]
      simp
    | some z =>
      rw [hfm] at h
      by_cases hr : rank y ≤ rank z
      · have h' : y = x := by simpa [hr] using h
        rw [← h']
        simp
      · have h' : z = x := by simpa [hr] using h
        rw [← h']
        exact List.mem_cons_of_mem y (firstMinRank_mem hfm)

theorem jsonIndex_of_truthy (c : JSON) (k : String) (hobj : c.isObj = true)
    (ht : pyTruthy (jsonGetD c k .null) = true) :
    jsonIndex c k = .ok (jsonGetD c k .null) := by
  cases c with
  | obj fs =>
    cases hf : fs.find? (fun p => p.1 == k) with
    | none => simp [jsonGetD, hf, pyTruthy] at ht
    | some p => simp [jsonIndex, jsonGetD, hf]
  | null => simp [JSON.isObj] at hobj
  | bool b => simp [JSON.isObj] at hobj
  | num n => simp [JSON.isObj] at hobj
  | str s => simp [JSON.isObj] at hobj
  | arr xs => simp [JSON.isObj] at hobj

theorem firstIndexedCreator_eq :
    ∀ (l : List JSON),
      (∀ i ∈ l, i.isObj = true → (jsonGetD i "type" (.str "")).isStr = true) →
      firstIndexedCreator l = .ok (match l.find? personalMainEntry with
        | some e => jsonGetD e "content" .null
        | none => .null)
  | [], _ => rfl
  | i :: rest, hshape => by
    have hrest : ∀ n ∈ rest, n.isObj = true →
        (jsonGetD n "type" (.str "")).isStr = true :=
      fun n hn => hshape n (List.mem_cons_of_mem _ hn)
    by_cases hobj : i.isObj = true
    · obtain ⟨s, hs⟩ := isStr_exists (hshape i (by simp) hobj)
      simp only [firstIndexedCreator]
      rw [if_pos hobj, pyDictGet_eq_ok i "type" _ hobj, hs]
      simp only [bind_ok_ex, pyLower]
      by_cases htype : (pyLowerStr s == "personal_main") = true
      · rw [if_pos htype, pyDictGet_eq_ok i "content" _ hobj]
        simp only [bind_ok_ex]
        by_cases htr : pyTruthy (jsonGetD i "content" .null) = true
        · rw [if_pos htr, jsonIndex_of_truthy i "content" hobj htr]
          have hq : personalMainEntry i = true := by
            simp [personalMainEntry, hobj, hs, JSON.asStr, htype, htr]
          rw [List.find?_cons_of_pos _ hq]
        · rw [if_neg htr, firstIndexedCreator_eq rest hrest]
          have hq : personalMainEntry i = false := by
            simp [personalMainEntry, bool_eq_false htr]
          rw [List.find?_cons_of_neg _ (by simp [hq])]
      · rw [if_neg htype, firstIndexedCreator_eq rest hrest]
        have hq : personalMainEntry i = false := by
          simp [personalMainEntry, hs, JSON.asStr, bool_eq_false htype]
        rw [List.find?_cons_of_neg _ (by simp [hq])]
    · simp only [firstIndexedCreator]
      rw [if_neg hobj, firstIndexedCreator_eq rest hrest]
      have hq : personalMainEntry i = false := by
        simp [personalMainEntry, bool_eq_false hobj]
      rw [List.find?_cons_of_neg _ (by simp [hq])]

/-- Claim C4: creator resolution agrees, on every well-shaped input, with
the specification-side pure function: among freetext name entries that are
structured objects with a recognized lower-cased creator-role label and
truthy (non-empty) content, the content of the entry with the lowest
priority rank wins, ties broken by original order (the stable sort plus
take-first of the source equals the first-minimum selector); if none
qualifies, the content of the first indexed-structured name entry whose
lower-cased type is personal_main with non-empty content; otherwise the
absent value. -/
theorem getCreator_matches_spec (idx ft : JSON) (nameList idxList : List JSON)
    (hft : ft.isObj = true)
    (hftn : jsonGetD ft "name" (.arr []) = .arr nameList)
    (hidx : idx.isObj = true)
    (hidxn : jsonGetD idx "name" (.arr []) = .arr idxList)
    (hlabels : ∀ i ∈ nameList, i.isObj = true →
      (jsonGetD i "label" (.str "")).isStr = true)
    (htypes : ∀ i ∈ idxList, i.isObj = true →
      (jsonGetD i "type" (.str "")).isStr = true) :
    getCreator idx ft = .ok (creatorSpec idx ft) := by
  rw [getCreator, pyDictGet_eq_ok ft "name" _ hft, hftn]
  simp only [bind_ok_ex, pyIter]
  rw [exceptFilter_eq freetextNameKeep creatorEntryQualifies nameList
    (fun x hx => freetextNameKeep_ok x (hlabels x hx))]
  simp only [bind_ok_ex]
  rw [pyDictGet_eq_ok idx "name" _ hidx, hidxn]
  simp only [bind_ok_ex, pyIter]
  simp only [creatorSpec, hftn, hidxn, jsonItems]
  rw [sortByRank_head]
  cases hfm : firstMinRank rankOf (nameList.filter creatorEntryQualifies) with
  | some c =>
    have hc : c ∈ nameList.filter creatorEntryQualifies := firstMinRank_mem hfm
    have hq : creatorEntryQualifies c = true := (List.mem_filter.mp hc).2
    have hq' := hq
    simp only [creatorEntryQualifies, Bool.and_eq_true] at hq'
    exact jsonIndex_of_truthy c "content" hq'.1.1 hq'.2
  | none =>
    exact firstIndexedCreator_eq idxList htypes

/-- Witness for the C4 theorem: a rank-4 Publisher entry listed before a
rank-0 Creator entry still resolves to the Creator entry's content. -/
theorem getCreator_matches_spec_witness :
    getCreator (JSON.obj [])
        (JSON.obj [("name", JSON.arr
          [JSON.obj [("label", JSON.str "Publisher"),
                     ("content", JSON.str "PubCo")],
           JSON.obj [("label", JSON.str "Creator"),
                     ("content", JSON.str "ArtistX")]])]) =
      .ok (JSON.str "ArtistX") := by
  rw [getCreator_matches_spec (JSON.obj [])
    (JSON.obj [("name", JSON.arr
      [JSON.obj [("label", JSON.str "Publisher"), ("content", JSON.str "PubCo")],
       JSON.obj [("label", JSON.str "Creator"),
                 ("content", JSON.str "ArtistX")]])])
    [JSON.obj [("label", JSON.str "Publisher"), ("content", JSON.str "PubCo")],
     JSON.obj [("label", JSON.str "Creator"), ("content", JSON.str "ArtistX")]]
    [] rfl rfl rfl rfl (by decide) (by decide)]
  rfl

/-! ## Claim C5: `_process_image_list` -/

/-- Reduction of Except's pure. -/
theorem pure_ok_ex {α : Type} (a : α) :
    (pure a : Except String α) = .ok a := rfl

theorem imageLoop_eq (landing title creator : JSON) (md : PyDict) (tags : JSON) :
    ∀ (items : List JSON) (tot0 : Option Nat) (store : List ImageRecord),
      (∀ d ∈ items, d.isObj = true ∧
        (pyEqStr (jsonGetD d "type" .null) "Images" = true →
          (jsonGetD d "usage" (.obj [])).isObj = true)) →
      imageLoop landing title creator md tags items tot0 store =
        .ok ((if (items.filter imageEntryQualifies).length = 0 then tot0
              else some (store.length +
                (items.filter imageEntryQualifies).length)),
          store ++ (items.filter imageEntryQualifies).map
            (mkImageRecord landing title creator md tags))
  | [], tot0, store, _ => by simp [imageLoop]
  | d :: rest, tot0, store, hshape => by
    obtain ⟨hobj, husage⟩ := hshape d (by simp)
    have hrest : ∀ n ∈ rest, n.isObj = true ∧
        (pyEqStr (jsonGetD n "type" .null) "Images" = true →
          (jsonGetD n "usage" (.obj [])).isObj = true) :=
      fun n hn => hshape n (List.mem_cons_of_mem _ hn)
    simp only [imageLoop]
    rw [pyDictGet_eq_ok d "type" _ hobj]
    simp only [bind_ok_ex]
    by_cases ht : pyEqStr (jsonGetD d "type" .null) "Images" = true
    · rw [if_pos ht, pyDictGet_eq_ok d "usage" _ hobj]
      simp only [bind_ok_ex]
      rw [pyDictGet_eq_ok _ "access" _ (husage ht)]
      simp only [bind_ok_ex, pure_ok_ex]
      by_cases ha : pyEqStr
          (jsonGetD (jsonGetD d "usage" (.obj [])) "access" .null) "CC0" = true
      · rw [if_pos ha, pyDictGet_eq_ok d "content" _ hobj]
        simp only [bind_ok_ex]
        rw [pyDictGet_eq_ok d "thumbnail" _ hobj]
        simp only [bind_ok_ex]
        rw [pyDictGet_eq_ok d "idsId" _ hobj]
        simp only [bind_ok_ex]
        rw [imageLoop_eq landing title creator md tags rest _ _ hrest]
        have hq : imageEntryQualifies d = true := by
          simp [imageEntryQualifies, ht, ha]
        by_cases hn : (rest.filter imageEntryQualifies).length = 0
        · simp [List.filter_cons, hq, hn, mkImageRecord, List.length_append]
        · simp only [List.filter_cons, hq, if_true, ite_true, List.length_cons,
            List.map_cons, List.length_append, List.length_singleton]
          rw [if_neg hn, if_neg (by omega)]
          simp only [List.length_nil, Nat.zero_add, List.append_assoc,
            List.singleton_append, mkImageRecord]
          congr 3
          omega
      · rw [if_neg ha, imageLoop_eq landing title creator md tags rest _ _ hrest]
        have hq : imageEntryQualifies d = false := by
          simp [imageEntryQualifies, bool_eq_false ha]
        simp [List.filter_cons, hq]
    · rw [if_neg ht]
      simp only [pure_ok_ex, bind_ok_ex]
      rw [if_neg (by simp : ¬ false = true)]
      rw [imageLoop_eq landing title creator md tags rest _ _ hrest]
      have hq : imageEntryQualifies d = false := by
        simp [imageEntryQualifies, bool_eq_false ht]
      simp [List.filter_cons, hq]

/-- Claim C5: exactly the media entries with type "Images" and usage-access
"CC0" yield one normalized record each — identifier from idsId, image URL
from content, thumbnail from thumbnail, the fixed zero-rights license URL,
and the row-level landing URL/title/creator/meta-data/tags shared across all
records of the row — appended to the store in order; non-qualifying entries
yield no record and no error, and the returned running total is the store
size after the last addition (absent when nothing qualified). -/
theorem processImageList_spec (items : List JSON) (landing title creator : JSON)
    (md : PyDict) (tags : JSON) (store : List ImageRecord)
    (hshape : ∀ d ∈ items, d.isObj = true ∧
      (pyEqStr (jsonGetD d "type" .null) "Images" = true →
        (jsonGetD d "usage" (.obj [])).isObj = true)) :
    processImageList (.arr items) landing title creator md tags store =
      .ok ((if (items.filter imageEntryQualifies).length = 0 then none
            else some (store.length +
              (items.filter imageEntryQualifies).length)),
        store ++ (items.filter imageEntryQualifies).map
          (mkImageRecord landing title creator md tags)) := by
  rw [processImageList]
  simp only [pyIter, bind_ok_ex]
  exact imageLoop_eq landing title creator md tags items none store hshape

/-- Witness for the C5 theorem: a media list mixing one CC0 Images entry
with a non-CC0 Images entry and a non-Images entry yields exactly one
record, built from the CC0 entry. -/
theorem processImageList_spec_witness :
    processImageList
        (JSON.arr
          [JSON.obj [("type", JSON.str "Images"),
                     ("usage", JSON.obj [("access", JSON.str "CC BY")])],
           JSON.obj [("type", JSON.str "Images"),
                     ("usage", JSON.obj [("access", JSON.str "CC0")]),
                     ("content", JSON.str "u1"),
                     ("thumbnail", JSON.str "t1"),
                     ("idsId", JSON.str "id1")],
           JSON.obj [("type", JSON.str "Sounds")]])
        (JSON.str "L") (JSON.str "T") JSON.null [] JSON.null [] =
      .ok (some 1,
        [{ foreignLandingUrl := JSON.str "L"
           imageUrl := JSON.str "u1"
           thumbnailUrl := JSON.str "t1"
           licenseUrl := ZERO_URL
           foreignIdentifier := JSON.str "id1"
           title := JSON.str "T"
           creator := JSON.null
           metaData := []
           rawTags := JSON.null }]) := by
  rw [processImageList_spec
    [JSON.obj [("type", JSON.str "Images"),
               ("usage", JSON.obj [("access", JSON.str "CC BY")])],
     JSON.obj [("type", JSON.str "Images"),
               ("usage", JSON.obj [("access", JSON.str "CC0")]),
               ("content", JSON.str "u1"),
               ("thumbnail", JSON.str "t1"),
               ("idsId", JSON.str "id1")],
     JSON.obj [("type", JSON.str "Sounds")]]
    (JSON.str "L") (JSON.str "T") JSON.null [] JSON.null [] (by decide)]
  rfl

end Smithsonian
